import Mathlib

/-!
Verification of the task lifecycle and execution protocol of
`src/lib/task/task.js` (ODK Central backend).

The JavaScript module is embedded shallowly: promises in the single-threaded,
cooperative scheduling model are state-passing functions over an explicit
process state `St` (the process-wide container slot `task._container`, the
stdout/stderr channels, `process.exitCode`, a trace of resource and audit
events, and a log of producer-thunk invocations).  External collaborators
(the database connector, the audit sink, the output serializer, the error
classifier) are parameters of an `Env` record, per the interfaces the spec
gives for them.
-/

set_option autoImplicit false

namespace CentralTask

/-- JavaScript values, restricted to the shapes the module manipulates.
An `obj` carries the four fields the module reads (`isProblem`, `httpCode`,
`message`, `problemDetails`; a missing field is `undefV`) plus a numeric tag
distinguishing otherwise-equal objects. -/
inductive Val where
  | null
  | undefV
  | boolV (b : Bool)
  | num (n : Int)
  | str (s : String)
  | obj (isProblem : Val) (httpCode : Val) (message : Val) (problemDetails : Val) (tag : Nat)
deriving DecidableEq

/-- JavaScript `x == null` (loose): true exactly for `null` and `undefined`. -/
def isNullish : Val → Bool
  | .null => true
  | .undefV => true
  | _ => false

/-- `ToNumber` of a string compared against 500, for `jsLt500` below.
Simplified to decimal integer literals (the module only ever compares the
numeric `httpCode` field; non-numeric strings convert to NaN, hence false). -/
def strLt500 (s : String) : Bool :=
  let t := s.trim
  if t = "" then true
  else match t.toInt? with
    | some n => n < 500
    | none => false

/-- JavaScript `x < 500`: numbers compare directly; `null` and booleans
coerce to 0/1; `undefined` and objects convert to NaN, so the comparison
is false. -/
def jsLt500 : Val → Bool
  | .num n => n < 500
  | .null => true
  | .boolV _ => true
  | .undefV => false
  | .str s => strLt500 s
  | .obj _ _ _ _ _ => false

/-- JavaScript string conversion, as performed by the template literal
in `writeTo` (`output.write(x + newline)`). -/
def jsToString : Val → String
  | .null => "null"
  | .undefV => "undefined"
  | .str s => s
  | .num n => toString n
  | .boolV b => if b then "true" else "false"
  | .obj _ _ _ _ _ => "[object Object]"

/-- Model of `util.inspect`: a deterministic debug rendering of a value.
(The exact text of Node's renderer is irrelevant to the claims; what matters
is that it is a fixed total function of the value.) -/
def inspect : Val → String
  | .null => "null"
  | .undefV => "undefined"
  | .str s => "\x27" ++ s ++ "\x27"
  | .num n => toString n
  | .boolV b => if b then "true" else "false"
  | .obj ip hc m d tag =>
      "\x7b isProblem: " ++ inspect ip ++ ", httpCode: " ++ inspect hc ++
      ", message: " ++ inspect m ++ ", problemDetails: " ++ inspect d ++
      ", tag: " ++ toString tag ++ " \x7d"

/-- The `TypeError` raised when a property of `null`/`undefined` is read. -/
def typeErrorVal : Val := .str "TypeError: cannot read property"

/-- The database handle produced by `connect(config.get(...))`: an identity
and the behavior of its `destroy()` method (`none` = returns normally,
`some e` = throws `e`). -/
structure Db where
  id : Nat
  destroyErr : Option Val
deriving DecidableEq

/-- The resource context `pkg.withDefaults({ db, crypto })`: the part the
lifecycle code touches is the owned `db` handle. -/
structure Container where
  db : Db
deriving DecidableEq

/-- Observable resource/audit events, in causal order. `connected`/`destroyed`
record calls to `connect` and `db.destroy()`; `audited` records an invocation
of `Audit.log` (the append attempt), with `ok` telling whether the sink
accepted it. -/
inductive Event where
  | connected (id : Nat)
  | destroyed (id : Nat)
  | audited (action : String) (success : Bool) (details : Val) (ok : Bool)
deriving DecidableEq

/-- The process state threaded through a task run: the shared slot
`task._container`, a supply of fresh db ids, the stdout/stderr channels
(lists of raw writes), `process.exitCode` (unset = `none`), the event trace,
and the log of producer-thunk invocations (by thunk id). -/
structure St where
  container : Option Container
  nextId : Nat
  stdout : List String
  stderr : List String
  exitCode : Option Nat
  trace : List Event
  calls : List Nat
deriving DecidableEq

/-- The exit status the process reports: `process.exitCode` if set, else 0. -/
def exitStatus (s : St) : Nat := s.exitCode.getD 0

/-- Settlement of a promise: resolved with a value or rejected with an error. -/
inductive Outcome where
  | ok (v : Val)
  | err (e : Val)
deriving DecidableEq

/-- A task: an in-flight computation that, in the single-threaded cooperative
model, maps the process state to a settlement and an updated state. -/
abbrev Task := St → Outcome × St

/-- `writeTo(process.stderr)`: appends the stringified value plus a newline. -/
def writeToStderr (x : Val) (s : St) : St :=
  { s with stderr := s.stderr ++ [jsToString x ++ "\n"] }

/-- `writeTo(process.stdout)`: appends the stringified value plus a newline. -/
def writeToStdout (x : Val) (s : St) : St :=
  { s with stdout := s.stdout ++ [jsToString x ++ "\n"] }

/-- `error.message` under JavaScript access rules, on values where access
cannot throw (used only inside `fault` after the nullish guard). -/
def msgOf : Val → Val
  | .obj _ _ m _ _ => m
  | _ => .undefV

/-- `error.problemDetails` under the same rules. -/
def pdOf : Val → Val
  | .obj _ _ _ d _ => d
  | _ => .undefV

/-- The classification guard of `fault`:
`(error != null) && (error.isProblem === true) && (error.httpCode < 500)`.
Only an object can have `isProblem === true`; for `null`/`undefined` the
first conjunct short-circuits before any property access. -/
def problemGuardB : Val → Bool
  | .obj ip hc _ _ _ => (decide (ip = .boolV true)) && jsLt500 hc
  | _ => false

/-- `fault(error)` from the source: print a terse message (plus optional
details) for a sub-500 user-facing problem, otherwise a full debug dump;
then set `process.exitCode = 1`. -/
def fault (error : Val) (s : St) : St :=
  let s1 :=
    if problemGuardB error then
      let a := writeToStderr (msgOf error) s
      if isNullish (pdOf error) then a
      else writeToStderr (.str (inspect (pdOf error))) a
    else writeToStderr (.str (inspect error)) s
  { s1 with exitCode := some 1 }

/-- Field selectors for the JavaScript-semantics property access below. -/
inductive Fld where
  | ipF
  | hcF
  | msgF
  | pdF
deriving DecidableEq

/-- JavaScript property access: throws `TypeError` on `null`/`undefined`,
yields the field on an object, and `undefined` on any other primitive. -/
def getProp : Val → Fld → Except Val Val
  | .null, _ => .error typeErrorVal
  | .undefV, _ => .error typeErrorVal
  | .obj ip hc m d _, f =>
      .ok (match f with
        | .ipF => ip
        | .hcF => hc
        | .msgF => m
        | .pdF => d)
  | _, _ => .ok .undefV

/-- `fault` re-expressed with explicit JavaScript property-access semantics,
where reading a field of `null`/`undefined` throws: used to show the
diagnostic path is total (never itself throws) on every input. -/
def faultJs (error : Val) (s : St) : Except Val St := do
  let g ←
    if isNullish error then pure false
    else do
      let ip ← getProp error .ipF
      if ip = .boolV true then do
        let hc ← getProp error .hcF
        pure (jsLt500 hc)
      else pure false
  let s1 ←
    if g then do
      let m ← getProp error .msgF
      let d ← getProp error .pdF
      let a := writeToStderr m s
      pure (if isNullish d then a else writeToStderr (.str (inspect d)) a)
    else pure (writeToStderr (.str (inspect error)) s)
  pure { s1 with exitCode := some 1 }

/-- Behavior of the external collaborators, per the interfaces the spec
assigns them: whether `connect` throws (and with what), whether a freshly
connected handle's `destroy()` throws, whether the audit sink's append
rejects (and with what), the output serializer, and the error classifier
`Problem.serializable`. -/
structure Env where
  connectErr : Option Val
  destroyErr : Option Val
  auditErr : Option Val
  serializeF : Val → Val
  problemSerializable : Val → Val

/-- The tail of `withContainer`'s owner path: the `cleanup` handler attached
to both settlement branches.  It reads the current slot (`task._container`),
calls `db.destroy()`, clears the slot, and re-surfaces the inner outcome.
A throw from `destroy()` escapes the handler, so the resulting promise
rejects with it and the slot is left uncleared; an empty slot at cleanup
time makes the property read itself throw. -/
def cleanup (res : Outcome) (s3 : St) : Outcome × St :=
  match s3.container with
  | none => (.err typeErrorVal, s3)
  | some c =>
      let s4 := { s3 with trace := s3.trace ++ [.destroyed c.db.id] }
      match c.db.destroyErr with
      | some e => (.err e, s4)
      | none => (res, { s4 with container := none })

/-- `task.withContainer(taskdef)`: if the process-wide slot is empty,
connect a fresh db, assemble and register the container, run the task
definition against it, and attach `cleanup` to both branches of the result;
if the slot is occupied, run the task definition against the registered
container and return its result untouched. -/
def withContainer (env : Env) (taskdef : Container → Task) : Task := fun s =>
  match s.container with
  | some c => taskdef c s
  | none =>
      match env.connectErr with
      | some e => (.err e, s)
      | none =>
          let c : Container := { db := { id := s.nextId, destroyErr := env.destroyErr } }
          let s1 : St :=
            { s with container := some c
                     nextId := s.nextId + 1
                     trace := s.trace ++ [.connected s.nextId] }
          let (res, s3) := taskdef c s1
          cleanup res s3

/-- `auditLog(action, success, details)`: a `withContainer`-wrapped call of
`Audit.log(null, action, null, merge({ success }, details))`.  The append
attempt is recorded in the trace; the sink resolves or rejects per
`env.auditErr`. -/
def auditLog (env : Env) (action : String) (success : Bool) (details : Val) : Task :=
  withContainer env (fun _c s =>
    let s1 := { s with trace := s.trace ++ [.audited action success details env.auditErr.isNone] }
    match env.auditErr with
    | none => (.ok .undefV, s1)
    | some e => (.err e, s1))

/-- `Option.of(error).map(Problem.serializable).orNull()`: `null` for a
nullish error, otherwise the classifier's structured problem description. -/
def serializeDetails (env : Env) (error : Val) : Val :=
  if isNullish error then .null else env.problemSerializable error

/-- A task argument as `auditing`/`run` accept it: either an in-flight task
or a zero-argument producer of one (arbitrarily nested).  Each producer
thunk carries an id under which its invocation is logged in `St.calls`. -/
inductive TaskLike where
  | tsk (t : Task)
  | producer (id : Nat) (rest : TaskLike)

/-- `auditing(action, t)`: unwrap producer thunks by recursion, then drive
the inner task, append one audit record reflecting its outcome, and
re-surface the original outcome; a failed append writes a diagnostic line,
routes the audit error through `fault`, and still re-surfaces the original
outcome. -/
def auditing (env : Env) (action : String) : TaskLike → Task
  | .producer id rest => fun s => auditing env action rest { s with calls := s.calls ++ [id] }
  | .tsk t => fun s =>
      match t s with
      | (.ok result, s1) =>
          (match auditLog env action true result s1 with
            | (.ok _, s2) => (.ok result, s2)
            | (.err auditError, s2) =>
                let s3 := writeToStderr (.str "Failed to audit-log task success message!") s2
                (.ok result, fault auditError s3))
      | (.err error, s1) =>
          (match auditLog env action false (serializeDetails env error) s1 with
            | (.ok _, s2) => (.err error, s2)
            | (.err auditError, s2) =>
                let s3 := writeToStderr (.str "Failed to audit-log task failure message!") s2
                (.err error, fault auditError s3))

/-- `run(t)`: unwrap producer thunks by recursion, then drive the task; on
success write `inspect(serialize(value))` plus a newline to stdout, on
failure run `fault`.  Both handlers return normally, so the resulting
promise resolves with `undefined` either way. -/
def run (env : Env) : TaskLike → Task
  | .producer id rest => fun s => run env rest { s with calls := s.calls ++ [id] }
  | .tsk t => fun s =>
      match t s with
      | (.ok v, s1) => (.ok .undefV, writeToStdout (.str (inspect (env.serializeF v))) s1)
      | (.err e, s1) => (.ok .undefV, fault e s1)

/-- The underlying in-flight task below any nesting of producer thunks. -/
def unwrap : TaskLike → Task
  | .tsk t => t
  | .producer _ rest => unwrap rest

/-- The producer-thunk ids of a task argument, outermost first: each layer
contributes exactly one entry, matching one invocation of that thunk. -/
def producerIds : TaskLike → List Nat
  | .tsk _ => []
  | .producer id rest => id :: producerIds rest

/-- Sequential execution of dependent `withContainer`-wrapped steps inside a
chain: each step runs only if the previous one resolved (promise `.then`
chaining), a rejection short-circuits, and an exhausted list resolves with
`null` (as `task.noop` does). -/
def runSteps (env : Env) : List (Container → Task) → Task
  | [] => fun s => (.ok .null, s)
  | d :: ds => fun s =>
      match withContainer env d s with
      | (.err e, s1) => (.err e, s1)
      | (.ok _, s1) => runSteps env ds s1

/-- The body of a chain as seen by the owning (first) step: its own work
`d0` against the shared container, then the remaining dependent steps, each
itself `withContainer`-wrapped and invoked while the owner's context is
still registered. -/
def chainBody (env : Env) (d0 : Container → Task) (rest : List (Container → Task))
    (c : Container) : Task := fun s =>
  match d0 c s with
  | (.err e, s1) => (.err e, s1)
  | (.ok _, s1) => runSteps env rest s1

/-- A chain of `1 + rest.length` dependent `withContainer`-wrapped steps,
entered through the owning first step. -/
def chain (env : Env) (d0 : Container → Task) (rest : List (Container → Task)) : Task :=
  withContainer env (chainBody env d0 rest)

/-- The container the owning step of a chain constructs when it starts from
state `s` (its db id is drawn from the fresh-id supply). -/
def ownerContainer (env : Env) (s : St) : Container :=
  { db := { id := s.nextId, destroyErr := env.destroyErr } }

/-- The state in which the chain body starts running: the fresh container
registered, the id supply advanced, the connection recorded. -/
def ownerStart (env : Env) (s : St) : St :=
  { s with container := some (ownerContainer env s)
           nextId := s.nextId + 1
           trace := s.trace ++ [.connected s.nextId] }

/-- Number of resource-lifecycle events (connections and destroys) in a
trace segment. -/
def lifeCount : List Event → Nat
  | [] => 0
  | .connected _ :: tr => 1 + lifeCount tr
  | .destroyed _ :: tr => 1 + lifeCount tr
  | .audited _ _ _ _ :: tr => lifeCount tr

/-- Number of audit append attempts in a trace segment. -/
def auditCount : List Event → Nat
  | [] => 0
  | .audited _ _ _ _ :: tr => 1 + auditCount tr
  | .connected _ :: tr => auditCount tr
  | .destroyed _ :: tr => auditCount tr

/-- A domain step is tame at a state when it leaves the lifecycle state
alone: it neither touches the shared slot nor the id supply, and only
appends lifecycle-free events to the trace.  Ordinary domain work (queries,
computation, output) is tame; only the lifecycle manager itself connects or
destroys. -/
def TameAt (t : Task) (s : St) : Prop :=
  (t s).2.container = s.container ∧
  (t s).2.nextId = s.nextId ∧
  ∃ tr, (t s).2.trace = s.trace ++ tr ∧ lifeCount tr = 0

/-- `Promise.resolve(v)` as a task: settles with `v`, no effects. -/
def pureT (v : Val) : Task := fun s => (.ok v, s)

/-- `Promise.reject(e)` as a task: rejects with `e`, no effects. -/
def failT (e : Val) : Task := fun s => (.err e, s)

/-- Collaborators all behaving: connect succeeds, destroy returns, the
audit sink accepts, serialization and classification are the identity. -/
def env0 : Env :=
  { connectErr := none
    destroyErr := none
    auditErr := none
    serializeF := fun v => v
    problemSerializable := fun v => v }

/-- Collaborators as in `env0` except the audit sink always rejects. -/
def envAuditFail : Env := { env0 with auditErr := some (.str "audit sink down") }

/-- Collaborators as in `env0` except `connect` always throws. -/
def envConnectFail : Env := { env0 with connectErr := some (.str "no database") }

/-- Collaborators as in `env0` except `db.destroy()` always throws. -/
def envDestroyThrow : Env := { env0 with destroyErr := some (.str "destroy threw") }

/-- The initial process state: empty slot, empty channels, exit code unset. -/
def st0 : St :=
  { container := none
    nextId := 0
    stdout := []
    stderr := []
    exitCode := none
    trace := []
    calls := [] }

/-- A concrete user-facing problem: status 400, message `Invalid input`,
no structured detail. -/
def problem400 : Val := .obj (.boolV true) (.num 400) (.str "Invalid input") .null 0

/-- A concrete chain step that resolves (ignoring the container). -/
def step0 : Container → Task := fun _ => pureT (.str "step0")

/-- A second concrete resolving chain step. -/
def step1 : Container → Task := fun _ => pureT (.str "step1")

/-- A concrete chain step that rejects, to exercise the failure branch. -/
def step2 : Container → Task := fun _ => failT (.str "step2 boom")

/-! ## Basic facts about the embedding -/

theorem lifeCount_append (a b : List Event) :
    lifeCount (a ++ b) = lifeCount a + lifeCount b := by
  induction a with
  | nil => simp [lifeCount]
  | cons e tr ih => cases e <;> simp [lifeCount, ih] <;> omega

theorem auditCount_append (a b : List Event) :
    auditCount (a ++ b) = auditCount a + auditCount b := by
  induction a with
  | nil => simp [auditCount]
  | cons e tr ih => cases e <;> (simp [auditCount, ih]; try omega)

/-- `fault` only writes stderr lines and sets the exit code; every other
component of the state is untouched. -/
theorem fault_fields (e : Val) (s : St) :
    (fault e s).container = s.container ∧ (fault e s).nextId = s.nextId ∧
    (fault e s).trace = s.trace ∧ (fault e s).stdout = s.stdout ∧
    (fault e s).exitCode = some 1 ∧ (fault e s).calls = s.calls ∧
    ∃ lines, (fault e s).stderr = s.stderr ++ lines := by
  unfold fault writeToStderr
  by_cases h : problemGuardB e
  · by_cases h2 : isNullish (pdOf e) <;> simp [h, h2]
  · simp [h]

/-- The non-owner path: with a registered container, `withContainer` just
runs the task definition against it. -/
theorem withContainer_nonowner (env : Env) (d : Container → Task) (s : St)
    (c : Container) (h : s.container = some c) :
    withContainer env d s = d c s := by
  unfold withContainer
  rw [h]

/-- If the audit sink rejects, `auditLog` rejects (with the sink's error, or
with a connect/destroy error from its own container lifecycle), and it
touches neither the output channels nor the exit code. -/
theorem auditLog_fails (env : Env) (action : String) (success : Bool) (details : Val)
    (s1 : St) (ae : Val) (h : env.auditErr = some ae) :
    ∃ e2 s2, auditLog env action success details s1 = (.err e2, s2) ∧
      s2.stderr = s1.stderr ∧ s2.stdout = s1.stdout ∧ s2.exitCode = s1.exitCode ∧
      s2.calls = s1.calls := by
  unfold auditLog withContainer
  cases hc : s1.container with
  | some c =>
      simp [h]
      exact ⟨ae, _, ⟨rfl, rfl⟩, rfl, rfl, rfl, rfl⟩
  | none =>
      cases hce : env.connectErr with
      | some ce =>
          simp
          exact ⟨ce, s1, ⟨rfl, rfl⟩, rfl, rfl, rfl, rfl⟩
      | none =>
          cases hde : env.destroyErr with
          | some de =>
              simp [h, cleanup, hde]
              exact ⟨de, _, ⟨rfl, rfl⟩, rfl, rfl, rfl, rfl⟩
          | none =>
              simp [h, cleanup, hde]
              exact ⟨ae, _, ⟨rfl, rfl⟩, rfl, rfl, rfl, rfl⟩

/-- Whatever the sink and its container lifecycle do, `auditLog` leaves the
output channels and the exit code alone. -/
theorem auditLog_quiet (env : Env) (action : String) (success : Bool) (details : Val)
    (s1 : St) :
    ((auditLog env action success details s1).2).stderr = s1.stderr ∧
    ((auditLog env action success details s1).2).stdout = s1.stdout ∧
    ((auditLog env action success details s1).2).exitCode = s1.exitCode := by
  unfold auditLog withContainer
  cases hc : s1.container with
  | some c => cases env.auditErr <;> simp
  | none =>
      cases hce : env.connectErr with
      | some ce => simp
      | none =>
          cases env.auditErr <;> cases hde : env.destroyErr <;> simp [cleanup, hde]

/-- With a working connector, `auditLog` performs exactly one append attempt,
strictly appended to the trace it was started with. -/
theorem auditLog_trace (env : Env) (action : String) (success : Bool) (details : Val)
    (s1 : St) (hconn : env.connectErr = none) :
    ∃ seg, ((auditLog env action success details s1).2).trace = s1.trace ++ seg ∧
      auditCount seg = 1 := by
  unfold auditLog withContainer
  cases hc : s1.container with
  | some c =>
      cases hae : env.auditErr with
      | none =>
          refine ⟨[.audited action success details true], ?_, by simp [auditCount]⟩
          simp [hae]
      | some ae =>
          refine ⟨[.audited action success details false], ?_, by simp [auditCount]⟩
          simp [hae]
  | none =>
      rw [hconn]
      cases hae : env.auditErr with
      | none =>
          cases hde : env.destroyErr with
          | none =>
              refine ⟨[.connected s1.nextId, .audited action success details true,
                .destroyed s1.nextId], ?_, by simp [auditCount]⟩
              simp [hae, hde, cleanup]
          | some de =>
              refine ⟨[.connected s1.nextId, .audited action success details true,
                .destroyed s1.nextId], ?_, by simp [auditCount]⟩
              simp [hae, hde, cleanup]
      | some ae =>
          cases hde : env.destroyErr with
          | none =>
              refine ⟨[.connected s1.nextId, .audited action success details false,
                .destroyed s1.nextId], ?_, by simp [auditCount]⟩
              simp [hae, hde, cleanup]
          | some de =>
              refine ⟨[.connected s1.nextId, .audited action success details false,
                .destroyed s1.nextId], ?_, by simp [auditCount]⟩
              simp [hae, hde, cleanup]

/-- The settlement of an audited task is the settlement of the inner task:
shared general form behind the per-claim statements. -/
theorem auditing_fst (env : Env) (action : String) (t : Task) (s : St) :
    (auditing env action (.tsk t) s).1 = (t s).1 := by
  rcases h : t s with ⟨res, s1⟩
  rcases res with v | e
  · rcases h2 : auditLog env action true v s1 with ⟨ares, s2⟩
    rcases ares with av | ae <;> simp [auditing, h, h2]
  · rcases h2 : auditLog env action false (serializeDetails env e) s1 with ⟨ares, s2⟩
    rcases ares with av | ae <;> simp [auditing, h, h2]

/-- `Promise.resolve` is tame: it performs no lifecycle action. -/
theorem tame_pureT (v : Val) (s : St) : TameAt (pureT v) s :=
  ⟨rfl, rfl, [], by simp [pureT], rfl⟩

/-- `Promise.reject` is tame: it performs no lifecycle action. -/
theorem tame_failT (e : Val) (s : St) : TameAt (failT e) s :=
  ⟨rfl, rfl, [], by simp [failT], rfl⟩

/-- With a context registered, a list of tame dependent steps run through
`withContainer` is itself tame: every step takes the non-owner path, so no
connection, no teardown, and no slot change happens. -/
theorem runSteps_tame (env : Env) (ds : List (Container → Task))
    (H : ∀ d ∈ ds, ∀ c s, TameAt (d c) s) (s : St) (c0 : Container)
    (hc : s.container = some c0) : TameAt (runSteps env ds) s := by
  induction ds generalizing s with
  | nil => exact ⟨rfl, rfl, [], by simp [runSteps], rfl⟩
  | cons d ds ih =>
      have hwc : withContainer env d s = d c0 s := withContainer_nonowner env d s c0 hc
      obtain ⟨hcont, hnext, tr1, htr1, hl1⟩ := H d (by simp) c0 s
      rcases hstep : d c0 s with ⟨r1, s1⟩
      rw [hstep] at hcont hnext htr1
      rcases r1 with v | e
      · have hc1 : s1.container = some c0 := by rw [hcont, hc]
        obtain ⟨hcont2, hnext2, tr2, htr2, hl2⟩ :=
          ih (fun d hd => H d (List.mem_cons_of_mem _ hd)) s1 hc1
        have hrun : runSteps env (d :: ds) s = runSteps env ds s1 := by
          simp [runSteps, hwc, hstep]
        refine ⟨?_, ?_, tr1 ++ tr2, ?_, ?_⟩
        · rw [hrun, hcont2, hcont]
        · rw [hrun, hnext2, hnext]
        · rw [hrun, htr2, htr1, List.append_assoc]
        · rw [lifeCount_append, hl1, hl2]
      · have hrun : runSteps env (d :: ds) s = (.err e, s1) := by
          simp [runSteps, hwc, hstep]
        exact ⟨by rw [hrun]; exact hcont, by rw [hrun]; exact hnext, tr1,
          by rw [hrun]; exact htr1, hl1⟩

/-- The whole chain body (owner's own work plus the dependent wrapped steps)
is tame while the owner's context is registered. -/
theorem chainBody_tame (env : Env) (d0 : Container → Task)
    (rest : List (Container → Task)) (H0 : ∀ c s, TameAt (d0 c) s)
    (H : ∀ d ∈ rest, ∀ c s, TameAt (d c) s) (c : Container) (s : St)
    (hc : s.container = some c) : TameAt (chainBody env d0 rest c) s := by
  obtain ⟨hcont, hnext, tr1, htr1, hl1⟩ := H0 c s
  rcases hstep : d0 c s with ⟨r1, s1⟩
  rw [hstep] at hcont hnext htr1
  rcases r1 with v | e
  · have hc1 : s1.container = some c := by rw [hcont, hc]
    obtain ⟨hcont2, hnext2, tr2, htr2, hl2⟩ := runSteps_tame env rest H s1 c hc1
    have hrun : chainBody env d0 rest c s = runSteps env rest s1 := by
      simp [chainBody, hstep]
    refine ⟨?_, ?_, tr1 ++ tr2, ?_, ?_⟩
    · rw [hrun, hcont2, hcont]
    · rw [hrun, hnext2, hnext]
    · rw [hrun, htr2, htr1, List.append_assoc]
    · rw [lifeCount_append, hl1, hl2]
  · have hrun : chainBody env d0 rest c s = (.err e, s1) := by
      simp [chainBody, hstep]
    exact ⟨by rw [hrun]; exact hcont, by rw [hrun]; exact hnext, tr1,
      by rw [hrun]; exact htr1, hl1⟩

/-- The owner path of a chain of tame steps, fully characterized: one
connection, the body against the fresh container, one teardown after the
body settles, the body's outcome re-surfaced, the slot cleared, the id
supply advanced by one. -/
theorem chain_spec (env : Env) (d0 : Container → Task)
    (rest : List (Container → Task)) (s : St)
    (hslot : s.container = none) (hconn : env.connectErr = none)
    (hdest : env.destroyErr = none)
    (H0 : ∀ c s, TameAt (d0 c) s) (H : ∀ d ∈ rest, ∀ c s, TameAt (d c) s) :
    (∃ tr, ((chain env d0 rest s).2).trace =
        s.trace ++ (Event.connected s.nextId :: (tr ++ [Event.destroyed s.nextId])) ∧
      lifeCount tr = 0) ∧
    ((chain env d0 rest s).2).container = none ∧
    ((chain env d0 rest s).2).nextId = s.nextId + 1 ∧
    (chain env d0 rest s).1 =
      (chainBody env d0 rest (ownerContainer env s) (ownerStart env s)).1 := by
  have hbt := chainBody_tame env d0 rest H0 H (ownerContainer env s) (ownerStart env s)
    (by simp [ownerStart])
  rcases hbody : chainBody env d0 rest (ownerContainer env s) (ownerStart env s) with ⟨res, s3⟩
  obtain ⟨hcont, hnext, tr, htr, hl⟩ := hbt
  rw [hbody] at hcont hnext htr
  have hch : chain env d0 rest s = cleanup res s3 := by
    unfold chain withContainer
    rw [hslot, hconn]
    show (match chainBody env d0 rest (ownerContainer env s) (ownerStart env s) with
      | (res, s3) => cleanup res s3) = cleanup res s3
    rw [hbody]
  have hc3 : s3.container = some (ownerContainer env s) := by
    rw [hcont]; simp [ownerStart]
  have hcl : cleanup res s3 =
      (res, { s3 with trace := s3.trace ++ [Event.destroyed s.nextId], container := none }) := by
    unfold cleanup
    rw [hc3]
    simp [ownerContainer, hdest]
  rw [hch, hcl]
  refine ⟨⟨tr, ?_, hl⟩, rfl, ?_, ?_⟩
  · show s3.trace ++ [Event.destroyed s.nextId] = _
    rw [htr]
    simp [ownerStart, List.append_assoc]
  · show s3.nextId = s.nextId + 1
    rw [hnext]; simp [ownerStart]
  · rfl

/-! ## Claim theorems -/

/-- Claim C2: For every task `t` and action name, the externally observable
outcome of `auditing(action, t)` is identical to the outcome of `t` alone,
in both settlement branch and value/error identity; the environment ranges
over every audit-sink behavior (accepting or rejecting) and `t` over both
settlement branches, so all four combinations of inner success/failure with
append success/failure are covered: auditing never transforms, suppresses,
or replaces the inner outcome. -/
theorem auditing_never_transforms (env : Env) (action : String) (t : Task) (s : St) :
    (auditing env action (.tsk t) s).1 = (t s).1 :=
  auditing_fst env action t s

/-- Claim C9: For every input error value — including `null`, `undefined`,
and values lacking problem-classification fields — the `fault` diagnostic
path terminates normally without throwing: under JavaScript property-access
semantics (where reading a field of `null`/`undefined` throws), the
classification guard and both output branches always return normally, with
the result the total function `fault` computes. -/
theorem fault_never_throws (error : Val) (s : St) :
    faultJs error s = Except.ok (fault error s) := by
  cases error with
  | null => simp [faultJs, fault, isNullish, problemGuardB, bind, Except.bind, pure, Except.pure]
  | undefV => simp [faultJs, fault, isNullish, problemGuardB, bind, Except.bind, pure, Except.pure]
  | boolV b =>
      simp [faultJs, fault, isNullish, problemGuardB, getProp, bind, Except.bind, pure, Except.pure]
  | num n =>
      simp [faultJs, fault, isNullish, problemGuardB, getProp, bind, Except.bind, pure, Except.pure]
  | str s2 =>
      simp [faultJs, fault, isNullish, problemGuardB, getProp, bind, Except.bind, pure, Except.pure]
  | obj ip hc m d tag =>
      by_cases hip : ip = .boolV true
      · by_cases hhc : jsLt500 hc <;>
          simp [faultJs, fault, isNullish, problemGuardB, getProp, msgOf, pdOf, hip, hhc,
            bind, Except.bind, pure, Except.pure]
      · simp [faultJs, fault, isNullish, problemGuardB, getProp, msgOf, pdOf, hip,
          bind, Except.bind, pure, Except.pure]

/-- Claim C10: For every zero-argument producer, `run` and
`auditing` invoke the thunk exactly once (one `calls` entry per nesting
layer, in unwrap order) and recurse on its result, so arbitrarily nested
producers behave identically to running or auditing the underlying task
directly. -/
theorem producers_unwrap (env : Env) (action : String) (tl : TaskLike) (s : St) :
    run env tl s = run env (.tsk (unwrap tl)) { s with calls := s.calls ++ producerIds tl } ∧
    auditing env action tl s =
      auditing env action (.tsk (unwrap tl)) { s with calls := s.calls ++ producerIds tl } := by
  induction tl generalizing s with
  | tsk t => simp [unwrap, producerIds]
  | producer id rest ih =>
      constructor
      · show run env rest { s with calls := s.calls ++ [id] } = _
        rw [(ih _).1]
        simp [unwrap, producerIds]
      · show auditing env action rest { s with calls := s.calls ++ [id] } = _
        rw [(ih _).2]
        simp [unwrap, producerIds]

/-- Claim C6: If construction of the resource context fails (the connector
throws), the failure propagates as the task's failure exactly like any
other rejection, the state is otherwise untouched, and no partial context
is left registered in the process-wide shared slot. -/
theorem connect_failure_clean (env : Env) (d : Container → Task) (s : St) (ce : Val)
    (hslot : s.container = none) (hconn : env.connectErr = some ce) :
    withContainer env d s = (.err ce, s) ∧
    ((withContainer env d s).2).container = none := by
  unfold withContainer
  rw [hslot, hconn]
  exact ⟨rfl, hslot⟩

/-- Witness for `connect_failure_clean` at a concrete failing connector. -/
theorem connect_failure_clean_witness :
    withContainer envConnectFail (fun _ => pureT .null) st0 =
      (.err (.str "no database"), st0) ∧
    ((withContainer envConnectFail (fun _ => pureT .null) st0).2).container = none :=
  connect_failure_clean envConnectFail (fun _ => pureT .null) st0 (.str "no database") rfl rfl

/-- Claim C5: Running a task that resolves with `v` writes exactly one stdout
line — the debug rendering of the output-serialized value followed by a
newline — beyond what the task itself wrote, adds nothing to stderr, and
leaves the exit-code cell untouched (never set on the success branch). -/
theorem run_success_output (env : Env) (t : Task) (s s1 : St) (v : Val)
    (h : t s = (.ok v, s1)) :
    run env (.tsk t) s =
      (.ok .undefV, { s1 with stdout := s1.stdout ++ [inspect (env.serializeF v) ++ "\n"] }) ∧
    ((run env (.tsk t) s).2).stderr = s1.stderr ∧
    ((run env (.tsk t) s).2).exitCode = s1.exitCode := by
  have hr : run env (.tsk t) s =
      (.ok .undefV, writeToStdout (.str (inspect (env.serializeF v))) s1) := by
    simp [run, h]
  rw [hr]
  exact ⟨by simp [writeToStdout, jsToString], by simp [writeToStdout], by simp [writeToStdout]⟩

/-- Witness for `run_success_output`: a pure task resolving with `7`, run
from the initial state, produces the single stdout line `7` with a newline,
an empty stderr, and exit status 0. -/
theorem run_success_output_witness :
    (run env0 (.tsk (pureT (.num 7))) st0 =
      (.ok .undefV, { st0 with stdout := st0.stdout ++ [inspect (env0.serializeF (.num 7)) ++ "\n"] }) ∧
     ((run env0 (.tsk (pureT (.num 7))) st0).2).stderr = st0.stderr ∧
     ((run env0 (.tsk (pureT (.num 7))) st0).2).exitCode = st0.exitCode) ∧
    exitStatus (run env0 (.tsk (pureT (.num 7))) st0).2 = 0 ∧
    ((run env0 (.tsk (pureT (.num 7))) st0).2).stdout = ["7\n"] ∧
    ((run env0 (.tsk (pureT (.num 7))) st0).2).stderr = [] :=
  ⟨run_success_output env0 (pureT (.num 7)) st0 st0 (.num 7) rfl, by decide, by decide, by decide⟩

/-- Claim C4: For every error a run task rejects with: a user-facing problem
(`isProblem === true`) with status code below 500 gets its message written
to stderr, plus the debug rendering of its structured detail exactly when
that detail is present — and nothing else, so no full debug dump of the
problem object; every other error gets its debug rendering written to
stderr; in all failure cases the process exit code is set to 1 and stdout
is untouched. -/
theorem run_failure_diagnostics (env : Env) (t : Task) (s s1 : St) (e : Val)
    (h : t s = (.err e, s1)) :
    ((run env (.tsk t) s).2).exitCode = some 1 ∧
    ((run env (.tsk t) s).2).stdout = s1.stdout ∧
    (problemGuardB e = true →
      ((run env (.tsk t) s).2).stderr =
        s1.stderr ++ ([jsToString (msgOf e) ++ "\n"] ++
          (if isNullish (pdOf e) then [] else [inspect (pdOf e) ++ "\n"]))) ∧
    (problemGuardB e = false →
      ((run env (.tsk t) s).2).stderr = s1.stderr ++ [inspect e ++ "\n"]) := by
  have hr : run env (.tsk t) s = (.ok .undefV, fault e s1) := by simp [run, h]
  rw [hr]
  refine ⟨rfl, ?_, ?_, ?_⟩
  · unfold fault
    by_cases hg : problemGuardB e
    · by_cases hd : isNullish (pdOf e) <;> simp [hg, hd, writeToStderr]
    · simp [hg, writeToStderr]
  · intro hg
    unfold fault
    by_cases hd : isNullish (pdOf e) <;> simp [hg, hd, writeToStderr, jsToString]
  · intro hg
    unfold fault
    simp [hg, writeToStderr, jsToString]

/-- Witness for `run_failure_diagnostics`: a task rejecting with the concrete
400-problem writes exactly the line `Invalid input` to stderr, sets exit
status 1, and does not write the problem object's debug dump. -/
theorem run_failure_diagnostics_witness :
    (((run env0 (.tsk (failT problem400)) st0).2).exitCode = some 1 ∧
     ((run env0 (.tsk (failT problem400)) st0).2).stdout = st0.stdout ∧
     (problemGuardB problem400 = true →
       ((run env0 (.tsk (failT problem400)) st0).2).stderr =
         st0.stderr ++ ([jsToString (msgOf problem400) ++ "\n"] ++
           (if isNullish (pdOf problem400) then [] else [inspect (pdOf problem400) ++ "\n"]))) ∧
     (problemGuardB problem400 = false →
       ((run env0 (.tsk (failT problem400)) st0).2).stderr =
         st0.stderr ++ [inspect problem400 ++ "\n"])) ∧
    ((run env0 (.tsk (failT problem400)) st0).2).stderr = ["Invalid input\n"] ∧
    exitStatus (run env0 (.tsk (failT problem400)) st0).2 = 1 ∧
    (inspect problem400 ++ "\n") ∉ ((run env0 (.tsk (failT problem400)) st0).2).stderr :=
  ⟨run_failure_diagnostics env0 (failT problem400) st0 st0 problem400 rfl,
    by decide, by decide, by decide⟩

/-- Counterexample to claim C1 as stated: with an always-failing audit sink,
an audited successful task does still resolve with its value, but the
process exit status does not remain 0 — the audit failure is routed through
`fault`, which sets the exit code to 1. -/
theorem audit_failure_exit_counterexample :
    (auditing envAuditFail "backup" (.tsk (pureT (.str "done"))) st0).1 = .ok (.str "done") ∧
    exitStatus (auditing envAuditFail "backup" (.tsk (pureT (.str "done"))) st0).2 = 1 := by
  decide

/-- Claim C1 (amended): when the inner task succeeds with `v` and the audit
append then fails, the wrapped task still resolves with `v` and a diagnostic
is written — but the audit failure is reported through the `fault` path,
which sets the process exit code to 1, so the exit status of an otherwise
successful run becomes 1 rather than remaining 0. -/
theorem audit_failure_keeps_value_sets_exit (env : Env) (action : String) (t : Task)
    (s s1 : St) (v : Val) (ae : Val)
    (hinner : t s = (.ok v, s1)) (haudit : env.auditErr = some ae) :
    (auditing env action (.tsk t) s).1 = .ok v ∧
    (∃ more, ((auditing env action (.tsk t) s).2).stderr =
        s1.stderr ++ (("Failed to audit-log task success message!" ++ "\n") :: more)) ∧
    ((auditing env action (.tsk t) s).2).exitCode = some 1 := by
  obtain ⟨e2, s2, hlog, hst, _hout, _hex, _hcalls⟩ :=
    auditLog_fails env action true v s1 ae haudit
  have ha : auditing env action (.tsk t) s =
      (.ok v, fault e2 (writeToStderr (.str "Failed to audit-log task success message!") s2)) := by
    simp [auditing, hinner, hlog]
  obtain ⟨_, _, _, _, hexit, _, lines, hstderr⟩ :=
    fault_fields e2 (writeToStderr (.str "Failed to audit-log task success message!") s2)
  rw [ha]
  refine ⟨rfl, ⟨lines, ?_⟩, hexit⟩
  show (fault e2 (writeToStderr (.str "Failed to audit-log task success message!") s2)).stderr = _
  rw [hstderr]
  simp [writeToStderr, hst, jsToString]

/-- Witness for `audit_failure_keeps_value_sets_exit` at a concrete failing
sink and successful inner task. -/
theorem audit_failure_keeps_value_sets_exit_witness :
    (auditing envAuditFail "export" (.tsk (pureT (.str "ok"))) st0).1 = .ok (.str "ok") ∧
    (∃ more, ((auditing envAuditFail "export" (.tsk (pureT (.str "ok"))) st0).2).stderr =
        st0.stderr ++ (("Failed to audit-log task success message!" ++ "\n") :: more)) ∧
    ((auditing envAuditFail "export" (.tsk (pureT (.str "ok"))) st0).2).exitCode = some 1 :=
  audit_failure_keeps_value_sets_exit envAuditFail "export" (pureT (.str "ok")) st0 st0
    (.str "ok") (.str "audit sink down") rfl rfl

/-- Counterexample to claim C7 as stated: when `db.destroy()` throws during
the owning teardown, the exception is not contained — the chain's outcome is
the destroy error, not the inner task's success value, and the shared slot
is not cleared. -/
theorem destroy_throw_counterexample :
    (withContainer envDestroyThrow (fun _ => pureT (.str "v")) st0).1 =
      .err (.str "destroy threw") ∧
    (withContainer envDestroyThrow (fun _ => pureT (.str "v")) st0).1 ≠ .ok (.str "v") ∧
    ((withContainer envDestroyThrow (fun _ => pureT (.str "v")) st0).2).container ≠ none := by
  decide

/-- Claim C7 (amended): if `db.destroy()` throws during the owning teardown,
the exception propagates out of the cleanup handler: the wrapped task rejects
with the destroy error on both settlement branches of the inner task
(replacing the real outcome), and the shared slot is left registered. -/
theorem destroy_throw_propagates (env : Env) (d : Container → Task) (s : St) (de : Val)
    (hslot : s.container = none) (hconn : env.connectErr = none)
    (hdest : env.destroyErr = some de)
    (hpres : ∀ c s2, ((d c) s2).2.container = s2.container) :
    (withContainer env d s).1 = .err de ∧
    ((withContainer env d s).2).container ≠ none := by
  rcases hbody : d (ownerContainer env s) (ownerStart env s) with ⟨res, s3⟩
  have hc3 : s3.container = some (ownerContainer env s) := by
    have hp := hpres (ownerContainer env s) (ownerStart env s)
    rw [hbody] at hp
    rw [hp]
    simp [ownerStart]
  have hw : withContainer env d s = cleanup res s3 := by
    unfold withContainer
    rw [hslot, hconn]
    show (match d (ownerContainer env s) (ownerStart env s) with
      | (res, s3) => cleanup res s3) = cleanup res s3
    rw [hbody]
  rw [hw]
  unfold cleanup
  rw [hc3]
  simp [ownerContainer, hdest]

/-- Witness for `destroy_throw_propagates` at a concrete throwing destroy. -/
theorem destroy_throw_propagates_witness :
    (withContainer envDestroyThrow (fun _ => pureT (.str "payload")) st0).1 =
      .err (.str "destroy threw") ∧
    ((withContainer envDestroyThrow (fun _ => pureT (.str "payload")) st0).2).container ≠
      none :=
  destroy_throw_propagates envDestroyThrow (fun _ => pureT (.str "payload")) st0
    (.str "destroy threw") rfl rfl rfl (fun _ _ => rfl)

/-- Claim C8: the audit append attempt happens strictly after the wrapped
inner task settles and strictly before the outcome is re-surfaced: the
audited task's trace is the inner task's final trace followed by a segment
containing exactly one append attempt, and the settlement delivered together
with that extended trace is the inner outcome. -/
theorem audit_append_ordering (env : Env) (action : String) (t : Task) (s : St)
    (out : Outcome) (s1 : St) (h : t s = (out, s1)) (hconn : env.connectErr = none) :
    ∃ seg, ((auditing env action (.tsk t) s).2).trace = s1.trace ++ seg ∧
      auditCount seg = 1 ∧
      (auditing env action (.tsk t) s).1 = out := by
  rcases out with v | e
  · obtain ⟨seg, hseg, hcount⟩ := auditLog_trace env action true v s1 hconn
    rcases hlog : auditLog env action true v s1 with ⟨ares, s2⟩
    rw [hlog] at hseg
    rcases ares with av | ae
    · exact ⟨seg, by simp [auditing, h, hlog]; exact hseg, hcount,
        by simp [auditing, h, hlog]⟩
    · have ha : auditing env action (.tsk t) s =
          (.ok v, fault ae (writeToStderr (.str "Failed to audit-log task success message!") s2)) := by
        simp [auditing, h, hlog]
      obtain ⟨_, _, htrace, _, _, _, _⟩ :=
        fault_fields ae (writeToStderr (.str "Failed to audit-log task success message!") s2)
      refine ⟨seg, ?_, hcount, by rw [ha]⟩
      rw [ha]
      show (fault ae (writeToStderr (.str "Failed to audit-log task success message!") s2)).trace = _
      rw [htrace]
      simpa [writeToStderr] using hseg
  · obtain ⟨seg, hseg, hcount⟩ :=
      auditLog_trace env action false (serializeDetails env e) s1 hconn
    rcases hlog : auditLog env action false (serializeDetails env e) s1 with ⟨ares, s2⟩
    rw [hlog] at hseg
    rcases ares with av | ae
    · exact ⟨seg, by simp [auditing, h, hlog]; exact hseg, hcount,
        by simp [auditing, h, hlog]⟩
    · have ha : auditing env action (.tsk t) s =
          (.err e, fault ae (writeToStderr (.str "Failed to audit-log task failure message!") s2)) := by
        simp [auditing, h, hlog]
      obtain ⟨_, _, htrace, _, _, _, _⟩ :=
        fault_fields ae (writeToStderr (.str "Failed to audit-log task failure message!") s2)
      refine ⟨seg, ?_, hcount, by rw [ha]⟩
      rw [ha]
      show (fault ae (writeToStderr (.str "Failed to audit-log task failure message!") s2)).trace = _
      rw [htrace]
      simpa [writeToStderr] using hseg

/-- Witness for `audit_append_ordering` with a working sink and a successful
inner task. -/
theorem audit_append_ordering_witness :
    ∃ seg, ((auditing env0 "sync" (.tsk (pureT (.num 3))) st0).2).trace =
        st0.trace ++ seg ∧
      auditCount seg = 1 ∧
      (auditing env0 "sync" (.tsk (pureT (.num 3))) st0).1 = .ok (.num 3) :=
  audit_append_ordering env0 "sync" (pureT (.num 3)) st0 (.ok (.num 3)) st0 rfl rfl

/-- Claim C3: for a chain of dependent tame steps entered with an empty
slot, under collaborators whose connect and destroy succeed: the context is
constructed exactly once (one `connected` event), the owning teardown runs
exactly once strictly after every event of the chain body (the final
`destroyed` event), the body's outcome is re-surfaced unchanged, the slot is
empty afterwards, and a subsequent sequential invocation finds the slot
empty and constructs its own fresh context (the next id from the supply)
with its own single teardown. -/
theorem chain_lifecycle (env : Env) (d0 : Container → Task)
    (rest : List (Container → Task)) (s : St)
    (hslot : s.container = none) (hconn : env.connectErr = none)
    (hdest : env.destroyErr = none)
    (H0 : ∀ c s2, TameAt (d0 c) s2) (H : ∀ d ∈ rest, ∀ c s2, TameAt (d c) s2) :
    (∃ tr, ((chain env d0 rest s).2).trace =
        s.trace ++ (Event.connected s.nextId :: (tr ++ [Event.destroyed s.nextId])) ∧
      lifeCount tr = 0) ∧
    ((chain env d0 rest s).2).container = none ∧
    ((chain env d0 rest s).2).nextId = s.nextId + 1 ∧
    (chain env d0 rest s).1 =
      (chainBody env d0 rest (ownerContainer env s) (ownerStart env s)).1 ∧
    (∃ tr2, ((chain env d0 rest ((chain env d0 rest s).2)).2).trace =
        ((chain env d0 rest s).2).trace ++
          (Event.connected (s.nextId + 1) :: (tr2 ++ [Event.destroyed (s.nextId + 1)])) ∧
      lifeCount tr2 = 0 ∧
      ((chain env d0 rest ((chain env d0 rest s).2)).2).container = none) := by
  obtain ⟨htr, hcont, hnext, hout⟩ := chain_spec env d0 rest s hslot hconn hdest H0 H
  refine ⟨htr, hcont, hnext, hout, ?_⟩
  obtain ⟨⟨tr2, htr2, hl2⟩, hcont2, _, _⟩ :=
    chain_spec env d0 rest ((chain env d0 rest s).2) hcont hconn hdest H0 H
  refine ⟨tr2, ?_, hl2, hcont2⟩
  rw [htr2, hnext]

/-- Witness for `chain_lifecycle`: a three-step chain (owner's work, one
dependent resolving step, one dependent rejecting step) run twice in
sequence from the initial state. -/
theorem chain_lifecycle_witness :
    (∃ tr, ((chain env0 step0 [step1, step2] st0).2).trace =
        st0.trace ++ (Event.connected st0.nextId :: (tr ++ [Event.destroyed st0.nextId])) ∧
      lifeCount tr = 0) ∧
    ((chain env0 step0 [step1, step2] st0).2).container = none ∧
    ((chain env0 step0 [step1, step2] st0).2).nextId = st0.nextId + 1 ∧
    (chain env0 step0 [step1, step2] st0).1 =
      (chainBody env0 step0 [step1, step2] (ownerContainer env0 st0) (ownerStart env0 st0)).1 ∧
    (∃ tr2, ((chain env0 step0 [step1, step2] ((chain env0 step0 [step1, step2] st0).2)).2).trace =
        ((chain env0 step0 [step1, step2] st0).2).trace ++
          (Event.connected (st0.nextId + 1) :: (tr2 ++ [Event.destroyed (st0.nextId + 1)])) ∧
      lifeCount tr2 = 0 ∧
      ((chain env0 step0 [step1, step2] ((chain env0 step0 [step1, step2] st0).2)).2).container =
        none) := by
  refine chain_lifecycle env0 step0 [step1, step2] st0 rfl rfl rfl
    (fun c s2 => tame_pureT (.str "step0") s2) ?_
  intro d hd c s2
  rcases List.mem_cons.mp hd with rfl | hd2
  · exact tame_pureT (.str "step1") s2
  · rcases List.mem_cons.mp hd2 with rfl | hd3
    · exact tame_failT (.str "step2 boom") s2
    · exact absurd hd3 (List.not_mem_nil d)

end CentralTask
